import Mathlib

/-!
Shallow embedding of the web-standards.dev static-site codebase, covering the
ellipsis-collapsing pagination renderer, the listing paginator, the client-side
search widget (debounce, rendering, escaping, lazy module loading) and the CLI
tooling (scaffolding date check, cross-post message composer).
-/

namespace WebStandards

/-! ### Pagination renderer (`paginationItems` filter, eleventy.config.js lines 329-363)

The filter receives `pagination.pageNumber` (zero-based), `pagination.pages`
(whose length is the page count) and `pagination.hrefs`.  Page numbers are kept
as `Int` because the JavaScript arithmetic (`end - start + 1`,
`total - 3`, `total - 4`) is signed; `Array.from({length: n})` with a
non-positive `n` yields the empty array, which matches `Int.toNat`. -/

inductive PageItem where
  | page (number : Int) (href : String) (isCurrent : Bool)
  | ellipsis
  deriving DecidableEq, Repr

/-- The `page(n)` constructor of the filter: `{ type: 'page', number: n,
href: pagination.hrefs[n - 1], isCurrent: n === current }`.  All `page(n)` calls
in the filter have `n ≥ 1`, so the `(n - 1).toNat` index is exact. -/
def pageOf (hrefs : List String) (current : Int) (n : Int) : PageItem :=
  PageItem.page n (hrefs.getD (n - 1).toNat "") (n == current)

/-- `range(start, end)`: `Array.from({ length: end - start + 1 }, (_, i) => page(start + i))`. -/
def rangePages (hrefs : List String) (current : Int) (s e : Int) : List PageItem :=
  (List.range (e - s + 1).toNat).map (fun (i : Nat) => pageOf hrefs current (s + (i : Int)))

/-- The `paginationItems` filter body.  `current = pageNumber + 1`,
`total = pagination.pages.length`, default `maxVisible = 7`. -/
def paginationItems (pageNumber totalPages : Nat) (hrefs : List String)
    (maxVisible : Nat := 7) : List PageItem :=
  let current : Int := (pageNumber : Int) + 1
  let total : Int := (totalPages : Int)
  if total ≤ (maxVisible : Int) then
    rangePages hrefs current 1 total
  else if current ≤ 4 then
    rangePages hrefs current 1 5 ++ [PageItem.ellipsis, pageOf hrefs current total]
  else if current ≥ total - 3 then
    [pageOf hrefs current 1, PageItem.ellipsis] ++ rangePages hrefs current (total - 4) total
  else
    [pageOf hrefs current 1, PageItem.ellipsis]
      ++ rangePages hrefs current (current - 1) (current + 1)
      ++ [PageItem.ellipsis, pageOf hrefs current total]

def PageItem.isPage : PageItem → Bool
  | PageItem.page _ _ _ => true
  | PageItem.ellipsis => false

/-- Does the rendered list contain a `page` entry carrying number `n`? -/
def containsPageNumber (items : List PageItem) (n : Int) : Bool :=
  items.any (fun it =>
    match it with
    | PageItem.page m _ _ => m == n
    | PageItem.ellipsis => false)

/-- No two consecutive entries of the list are both ellipses. -/
def noAdjacentEllipses : List PageItem → Bool
  | PageItem.ellipsis :: PageItem.ellipsis :: _ => false
  | _ :: rest => noAdjacentEllipses rest
  | [] => true

theorem rangePages_len5 (hrefs : List String) (c s e : Int) (h : (e - s + 1).toNat = 5) :
    rangePages hrefs c s e =
      [pageOf hrefs c s, pageOf hrefs c (s + 1), pageOf hrefs c (s + 2),
       pageOf hrefs c (s + 3), pageOf hrefs c (s + 4)] := by
  unfold rangePages
  rw [h]
  simp [List.range_succ]

theorem rangePages_len3 (hrefs : List String) (c s e : Int) (h : (e - s + 1).toNat = 3) :
    rangePages hrefs c s e =
      [pageOf hrefs c s, pageOf hrefs c (s + 1), pageOf hrefs c (s + 2)] := by
  unfold rangePages
  rw [h]
  simp [List.range_succ]

/-- Claim C5: for every current page number and total page count, the
ellipsis-collapsing `paginationItems` filter (default `maxVisible = 7`)
includes an entry for page 1 and for page `total` whenever `total` exceeds the
threshold, and its output never contains two adjacent ellipsis entries. -/
theorem paginationItems_firstLast_noAdjacentEllipses (pageNumber totalPages : Nat)
    (hrefs : List String) (h : 7 < totalPages) :
    containsPageNumber (paginationItems pageNumber totalPages hrefs) 1 = true ∧
    containsPageNumber (paginationItems pageNumber totalPages hrefs) (totalPages : Int) = true ∧
    noAdjacentEllipses (paginationItems pageNumber totalPages hrefs) = true := by
  unfold paginationItems
  have h7 : ¬ ((totalPages : Int) ≤ ((7 : Nat) : Int)) := by push_cast; omega
  rw [if_neg h7]
  by_cases h4 : ((pageNumber : Int) + 1 ≤ 4)
  · rw [if_pos h4, rangePages_len5 hrefs _ 1 5 (by decide)]
    simp [containsPageNumber, noAdjacentEllipses, pageOf, beq_iff_eq]
  · rw [if_neg h4]
    by_cases h3 : ((pageNumber : Int) + 1 ≥ (totalPages : Int) - 3)
    · rw [if_pos h3,
        rangePages_len5 hrefs _ ((totalPages : Int) - 4) (totalPages : Int) (by omega)]
      simp [containsPageNumber, noAdjacentEllipses, pageOf, beq_iff_eq]
    · rw [if_neg h3,
        rangePages_len3 hrefs _ ((pageNumber : Int) + 1 - 1) ((pageNumber : Int) + 1 + 1) (by omega)]
      simp [containsPageNumber, noAdjacentEllipses, pageOf, beq_iff_eq]

/-- Witness for claim C5 at `pageNumber = 4`, `totalPages = 9` (middle branch,
two ellipses). -/
theorem paginationItems_firstLast_noAdjacentEllipses_witness :
    containsPageNumber (paginationItems 4 9 ["a"]) 1 = true ∧
    containsPageNumber (paginationItems 4 9 ["a"]) 9 = true ∧
    noAdjacentEllipses (paginationItems 4 9 ["a"]) = true :=
  paginationItems_firstLast_noAdjacentEllipses 4 9 ["a"] (by decide)

/-- Claim C10: with the default `maxVisible = 7`, the `paginationItems` filter
returns exactly `total` entries — all of type `page`, numbered `1` through
`total` in order — when `total ≤ 7`, and exactly 7 entries (pages plus one or
two ellipsis markers) when `total > 7`. -/
theorem paginationItems_default_shape (pageNumber totalPages : Nat) (hrefs : List String) :
    (totalPages ≤ 7 →
      (paginationItems pageNumber totalPages hrefs).length = totalPages ∧
      ∀ i : Nat, i < totalPages →
        (paginationItems pageNumber totalPages hrefs).getD i PageItem.ellipsis
          = pageOf hrefs ((pageNumber : Int) + 1) ((i : Int) + 1)) ∧
    (7 < totalPages →
      (paginationItems pageNumber totalPages hrefs).length = 7 ∧
      ((paginationItems pageNumber totalPages hrefs).countP (fun it => !it.isPage) = 1 ∨
       (paginationItems pageNumber totalPages hrefs).countP (fun it => !it.isPage) = 2)) := by
  constructor
  · intro hle
    have h7 : ((totalPages : Int) ≤ ((7 : Nat) : Int)) := by push_cast; omega
    unfold paginationItems
    rw [if_pos h7]
    have hlen : ((totalPages : Int) - 1 + 1).toNat = totalPages := by omega
    constructor
    · unfold rangePages
      rw [hlen, List.length_map, List.length_range]
    · intro i hi
      unfold rangePages
      rw [hlen, List.getD_eq_getElem?_getD, List.getElem?_map, List.getElem?_range hi]
      simp [Int.add_comm]
  · intro hgt
    have h7 : ¬ ((totalPages : Int) ≤ ((7 : Nat) : Int)) := by push_cast; omega
    unfold paginationItems
    rw [if_neg h7]
    by_cases h4 : ((pageNumber : Int) + 1 ≤ 4)
    · rw [if_pos h4, rangePages_len5 hrefs _ 1 5 (by decide)]
      simp [pageOf, PageItem.isPage]
    · rw [if_neg h4]
      by_cases h3 : ((pageNumber : Int) + 1 ≥ (totalPages : Int) - 3)
      · rw [if_pos h3,
          rangePages_len5 hrefs _ ((totalPages : Int) - 4) (totalPages : Int) (by omega)]
        simp [pageOf, PageItem.isPage]
      · rw [if_neg h3,
          rangePages_len3 hrefs _ ((pageNumber : Int) + 1 - 1) ((pageNumber : Int) + 1 + 1) (by omega)]
        simp [pageOf, PageItem.isPage]

/-- Witness for claim C10: both branches evaluated at concrete inputs. -/
theorem paginationItems_default_shape_witness :
    (paginationItems 0 5 ["a"]).length = 5 ∧ (paginationItems 2 9 ["a"]).length = 7 :=
  ⟨((paginationItems_default_shape 0 5 ["a"]).1 (by decide)).1,
   ((paginationItems_default_shape 2 9 ["a"]).2 (by decide)).1⟩

/-! ### Listing paginator (`newsPagination` collection, src/config/scripts.js lines 37-61)

Entries carry their `date` (a timestamp: `b.date - a.date` comparisons) and the
`eleventyExcludeFromCollections` flag.  `Array.prototype.sort` is stable
(ES2019), so the comparator `(a, b) => b.date - a.date` is modelled by a stable
insertion sort into descending date order. -/

structure NewsItem where
  date : Int
  excluded : Bool
  deriving DecidableEq, Repr, Inhabited

/-- Insert `x` behind every already-placed item whose date is `≥ x.date`
(stable descending insertion). -/
def insertByDateDesc (x : NewsItem) : List NewsItem → List NewsItem
  | [] => [x]
  | y :: ys => if y.date < x.date then x :: y :: ys else y :: insertByDateDesc x ys

/-- `.sort((a, b) => b.date - a.date)`: stable, descending by date. -/
def sortByDateDesc (l : List NewsItem) : List NewsItem :=
  l.foldl (fun acc x => insertByDateDesc x acc) []

structure NewsPage where
  permalink : String
  title : String
  items : List NewsItem
  pageNumber : Nat
  hrefs : List String
  deriving Repr, Inhabited

/-- `hrefs = Array.from({length: totalPages}, (_, i) => i === 0 ? '/news/' : `.../page/i+1/`)`. -/
def newsHrefs (totalPages : Nat) : List String :=
  (List.range totalPages).map
    (fun i => if i = 0 then "/news/" else "/news/page/" ++ toString (i + 1) ++ "/")

/-- The object built for `pageIndex` by the `newsPagination` collection;
`items.slice(pageIndex * pageSize, (pageIndex + 1) * pageSize)` is
`drop (pageIndex * pageSize)` followed by `take pageSize`. -/
def newsPageFor (items : List NewsItem) (pageSize totalPages pageIndex : Nat) : NewsPage :=
  { permalink := if pageIndex = 0 then "/news/index.html"
      else "/news/page/" ++ toString (pageIndex + 1) ++ "/index.html"
    title := if pageIndex = 0 then "All news"
      else "All news — Page " ++ toString (pageIndex + 1)
    items := (items.drop (pageIndex * pageSize)).take pageSize
    pageNumber := pageIndex
    hrefs := newsHrefs totalPages }

/-- The `newsPagination` collection: filter out excluded entries, sort by
descending date, slice into `Math.ceil(items.length / pageSize)` pages. -/
def newsPagination (pageSize : Nat) (entries : List NewsItem) : List NewsPage :=
  let items := sortByDateDesc (entries.filter (fun it => !it.excluded))
  let totalPages := (items.length + pageSize - 1) / pageSize
  (List.range totalPages).map (newsPageFor items pageSize totalPages)

theorem join_take_chunks (N : Nat) :
    ∀ (k : Nat) (l : List NewsItem), l.length ≤ k * N →
      ((List.range k).map (fun i => (l.drop (i * N)).take N)).flatten = l := by
  intro k
  induction k with
  | zero =>
    intro l hl
    simp at hl
    simp [hl]
  | succ k ih =>
    intro l hl
    rw [List.range_succ_eq_map]
    simp only [List.map_cons, List.map_map, List.flatten_cons]
    have h0 : (l.drop (0 * N)).take N = l.take N := by simp
    rw [h0]
    have hrest :
        (List.range k).map ((fun i => (l.drop (i * N)).take N) ∘ Nat.succ)
          = (List.range k).map (fun i => ((l.drop N).drop (i * N)).take N) := by
      apply List.map_congr_left
      intro i _
      simp only [Function.comp]
      have hidx : i.succ * N = N + i * N := by
        rw [Nat.succ_mul, Nat.add_comm]
      rw [List.drop_drop, hidx]
    have hlen2 : (l.drop N).length ≤ k * N := by
      have hs : (k + 1) * N = k * N + N := Nat.succ_mul k N
      simp
      omega
    rw [hrest, ih (l.drop N) hlen2]
    exact List.take_append_drop N l

theorem pages_general (N : Nat) (hN : 1 ≤ N) (items : List NewsItem) (T : Nat)
    (hT : T = (items.length + N - 1) / N) :
    ((List.range T).map (newsPageFor items N T)).length = T ∧
    (∀ i : Nat, i + 1 < T →
      (((List.range T).map (newsPageFor items N T)).getD i default).items.length = N) ∧
    (((List.range T).map (newsPageFor items N T)).map NewsPage.items).flatten = items := by
  have hdm := Nat.div_add_mod (items.length + N - 1) N
  have hmod : (items.length + N - 1) % N < N := Nat.mod_lt _ (by omega)
  refine ⟨by simp, ?_, ?_⟩
  · intro i hi
    have h1 : (i + 2) * N ≤ T * N := Nat.mul_le_mul_right N (by omega)
    have h2 : T * N = N * T := Nat.mul_comm _ _
    have h3 : (i + 2) * N = i * N + N + N := by
      rw [show i + 2 = (i + 1) + 1 from rfl, Nat.succ_mul, Nat.succ_mul]
    have hub : i * N + N ≤ items.length := by
      subst hT
      omega
    rw [List.getD_eq_getElem?_getD, List.getElem?_map, List.getElem?_range (by omega : i < T)]
    simp [newsPageFor]
    omega
  · rw [List.map_map]
    have hcomp : NewsPage.items ∘ newsPageFor items N T
        = fun pageIndex => (items.drop (pageIndex * N)).take N := rfl
    rw [hcomp]
    refine join_take_chunks N T items ?_
    have h2 : T * N = N * T := Nat.mul_comm _ _
    subst hT
    omega

/-- Claim C4: for every page size `N ≥ 1`, the `newsPagination` collection
produces exactly `⌈M/N⌉` pages, where `M` is the length of the list being
paginated (the filtered, date-descending-sorted entries); every page except
possibly the last holds exactly `N` items; and the concatenation of all pages'
items is exactly that filtered sorted list (no duplicates, no omissions). -/
theorem newsPagination_pages (pageSize : Nat) (hN : 1 ≤ pageSize) (entries : List NewsItem) :
    (newsPagination pageSize entries).length
        = ((sortByDateDesc (entries.filter (fun it => !it.excluded))).length + pageSize - 1)
            / pageSize ∧
    (∀ i : Nat, i + 1 < (newsPagination pageSize entries).length →
      ((newsPagination pageSize entries).getD i default).items.length = pageSize) ∧
    ((newsPagination pageSize entries).map NewsPage.items).flatten
        = sortByDateDesc (entries.filter (fun it => !it.excluded)) := by
  have h := pages_general pageSize hN
    (sortByDateDesc (entries.filter (fun it => !it.excluded)))
    (((sortByDateDesc (entries.filter (fun it => !it.excluded))).length + pageSize - 1) / pageSize)
    rfl
  simpa [newsPagination] using h

/-- Witness for claim C4 at `pageSize = 2` on four entries (one excluded). -/
theorem newsPagination_pages_witness :
    1 ≤ 2 ∧
    ((newsPagination 2 [⟨5, false⟩, ⟨7, false⟩, ⟨6, true⟩, ⟨9, false⟩]).map
        NewsPage.items).flatten
      = sortByDateDesc
          (([⟨5, false⟩, ⟨7, false⟩, ⟨6, true⟩, ⟨9, false⟩] : List NewsItem).filter
            (fun it => !it.excluded)) :=
  ⟨by decide,
   (newsPagination_pages 2 (by decide) [⟨5, false⟩, ⟨7, false⟩, ⟨6, true⟩, ⟨9, false⟩]).2.2⟩

/-! ### Search widget: result rendering and HTML escaping
(src/scripts/modules/search.js, `renderResults` lines 214-258 and
`escapeHtml` lines 310-320) -/

/-- The apostrophe character. -/
def aposChar : Char := Char.ofNat 39

/-- One global single-character `String.prototype.replace` pass. -/
def replaceChar (target : Char) (rep : List Char) : List Char → List Char
  | [] => []
  | c :: cs => (if c = target then rep else [c]) ++ replaceChar target rep cs

/-- `escapeHtml`: the five chained global replaces, in source order
(`&` first, then `<`, `>`, the double quote, the apostrophe). -/
def escapeHtml (value : List Char) : List Char :=
  replaceChar aposChar "&#39;".toList
    (replaceChar '"' "&quot;".toList
      (replaceChar '>' "&gt;".toList
        (replaceChar '<' "&lt;".toList
          (replaceChar '&' "&amp;".toList value))))

/-- A search result item as consumed by `renderResults`: `item.meta?.title`
(`none` triggers the `?? item.url` fallback), `item.url`, and
`item.excerpt ?? ''`. -/
structure SearchItem where
  metaTitle : Option (List Char)
  url : List Char
  excerpt : List Char

/-- The `<li>` markup built for one item (template literal, lines 232-243;
the literal's layout whitespace is omitted).  The title goes through
`escapeHtml`; the excerpt is interpolated directly into `<p>…</p>`. -/
def renderItemHtml (idNum : Nat) (item : SearchItem) : List Char :=
  let title := item.metaTitle.getD item.url
  let paragraph :=
    if item.excerpt = [] then []
    else "<p>".toList ++ item.excerpt ++ "</p>".toList
  "<li role=\"option\" aria-selected=\"false\"><a href=\"".toList
    ++ item.url
    ++ "\" id=\"search-result-".toList ++ (Nat.repr idNum).toList
    ++ "\" tabindex=\"-1\">".toList
    ++ escapeHtml title
    ++ "</a>".toList
    ++ paragraph
    ++ "</li>".toList

/-- `items.map(...).join('')` with the pre-incremented `resultIdCounter`. -/
def renderResultsHtml (counter : Nat) : List SearchItem → List Char
  | [] => []
  | item :: rest => renderItemHtml (counter + 1) item ++ renderResultsHtml (counter + 1) rest

/-- What the spec asserts instead of `renderItemHtml`: the same markup but with
the excerpt also passed through `escapeHtml` before insertion. -/
def renderItemHtmlSpec (idNum : Nat) (item : SearchItem) : List Char :=
  let title := item.metaTitle.getD item.url
  let paragraph :=
    if item.excerpt = [] then []
    else "<p>".toList ++ escapeHtml item.excerpt ++ "</p>".toList
  "<li role=\"option\" aria-selected=\"false\"><a href=\"".toList
    ++ item.url
    ++ "\" id=\"search-result-".toList ++ (Nat.repr idNum).toList
    ++ "\" tabindex=\"-1\">".toList
    ++ escapeHtml title
    ++ "</a>".toList
    ++ paragraph
    ++ "</li>".toList

/-- List-level variant of `renderItemHtmlSpec`, mirroring `renderResultsHtml`. -/
def renderResultsHtmlSpec (counter : Nat) : List SearchItem → List Char
  | [] => []
  | item :: rest =>
    renderItemHtmlSpec (counter + 1) item ++ renderResultsHtmlSpec (counter + 1) rest

theorem mem_replaceChar {c t : Char} {rep s : List Char}
    (h : c ∈ replaceChar t rep s) : c ∈ rep ∨ (c ∈ s ∧ c ≠ t) := by
  induction s with
  | nil => simp [replaceChar] at h
  | cons a as ih =>
    simp only [replaceChar, List.mem_append] at h
    rcases h with h | h
    · by_cases ha : a = t
      · rw [if_pos ha] at h
        exact Or.inl h
      · rw [if_neg ha] at h
        simp at h
        subst h
        exact Or.inr ⟨List.mem_cons_self _ _, ha⟩
    · rcases ih h with h2 | ⟨h2, h3⟩
      · exact Or.inl h2
      · exact Or.inr ⟨List.mem_cons_of_mem _ h2, h3⟩

theorem escapeHtml_safe (s : List Char) :
    ∀ c ∈ escapeHtml s, c ≠ '<' ∧ c ≠ '>' ∧ c ≠ '"' ∧ c ≠ aposChar := by
  intro c hc
  unfold escapeHtml at hc
  rcases mem_replaceChar hc with h | ⟨hc, hne5⟩
  · fin_cases h <;> exact ⟨by decide, by decide, by decide, by decide⟩
  · rcases mem_replaceChar hc with h | ⟨hc, hne4⟩
    · fin_cases h <;> exact ⟨by decide, by decide, by decide, by decide⟩
    · rcases mem_replaceChar hc with h | ⟨hc, hne3⟩
      · fin_cases h <;> exact ⟨by decide, by decide, by decide, by decide⟩
      · rcases mem_replaceChar hc with h | ⟨hc, hne2⟩
        · fin_cases h <;> exact ⟨by decide, by decide, by decide, by decide⟩
        · rcases mem_replaceChar hc with h | ⟨hc, hne1⟩
          · fin_cases h <;> exact ⟨by decide, by decide, by decide, by decide⟩
          · exact ⟨hne2, hne3, hne4, hne5⟩

/-- Claim C2 counterexample: the claim "both the title and the excerpt of each
item are HTML-escaped before insertion" fails on the concrete item with excerpt
`<img src=x>` — the markup produced by the code differs from the markup that
escapes the excerpt too (the excerpt is inserted raw). -/
theorem renderResultsHtml_escape_counterexample :
    renderResultsHtml 0 [⟨some "t".toList, "/u".toList, "<img src=x>".toList⟩]
      ≠ renderResultsHtmlSpec 0 [⟨some "t".toList, "/u".toList, "<img src=x>".toList⟩] := by
  decide

/-- Claim C2 amended: rendered titles are HTML-escaped before insertion (the
escaped title contains none of the characters replaced by `escapeHtml` other
than `&`), but the excerpt is inserted into the `<p>…</p>` markup verbatim,
without escaping. -/
theorem renderItemHtml_title_escaped_excerpt_raw (idNum : Nat) (item : SearchItem)
    (hx : item.excerpt ≠ []) :
    (∀ c ∈ escapeHtml (item.metaTitle.getD item.url),
        c ≠ '<' ∧ c ≠ '>' ∧ c ≠ '"' ∧ c ≠ aposChar) ∧
    List.IsInfix (escapeHtml (item.metaTitle.getD item.url)) (renderItemHtml idNum item) ∧
    List.IsInfix ("<p>".toList ++ item.excerpt ++ "</p>".toList) (renderItemHtml idNum item) := by
  refine ⟨escapeHtml_safe _, ?_, ?_⟩
  · refine ⟨"<li role=\"option\" aria-selected=\"false\"><a href=\"".toList
        ++ item.url ++ "\" id=\"search-result-".toList ++ (Nat.repr idNum).toList
        ++ "\" tabindex=\"-1\">".toList,
      "</a>".toList
        ++ (if item.excerpt = [] then []
            else "<p>".toList ++ item.excerpt ++ "</p>".toList)
        ++ "</li>".toList, ?_⟩
    simp [renderItemHtml]
  · refine ⟨"<li role=\"option\" aria-selected=\"false\"><a href=\"".toList
        ++ item.url ++ "\" id=\"search-result-".toList ++ (Nat.repr idNum).toList
        ++ "\" tabindex=\"-1\">".toList
        ++ escapeHtml (item.metaTitle.getD item.url)
        ++ "</a>".toList,
      "</li>".toList, ?_⟩
    simp [renderItemHtml, hx]

/-- Witness for the amended claim C2 at a one-character excerpt. -/
theorem renderItemHtml_title_escaped_excerpt_raw_witness :
    (("x".toList : List Char) ≠ []) ∧
    List.IsInfix ("<p>".toList ++ "x".toList ++ "</p>".toList)
      (renderItemHtml 1 ⟨some "t".toList, "/u".toList, "x".toList⟩) :=
  ⟨by decide,
   (renderItemHtml_title_escaped_excerpt_raw 1 ⟨some "t".toList, "/u".toList, "x".toList⟩
     (by decide)).2.2⟩

/-! ### Search widget: input debouncing (`onInput`, search.js lines 76-88)

`onInput` trims the field value, cancels any pending `setTimeout`, and
schedules `performSearch(value)` 300 ms later.  Events are modelled as
`(time, raw field value)` pairs; a pending timer is `(deadline, query)`.
A timer whose deadline has passed by the time the next event arrives fires
first (`setTimeout` semantics on the event loop). -/

/-- JavaScript whitespace as removed by `String.prototype.trim` (ASCII part). -/
def isJsWhitespace (c : Char) : Bool :=
  c == ' ' || c == '\t' || c == '\n' || c == '\r' ||
    c == Char.ofNat 11 || c == Char.ofNat 12

/-- `String.prototype.trim`. -/
def trimChars (s : List Char) : List Char :=
  ((s.dropWhile isJsWhitespace).reverse.dropWhile isJsWhitespace).reverse

structure DebounceState where
  pending : Option (Nat × List Char)
  fired : List (List Char)
  deriving DecidableEq, Repr

/-- Fire the pending timer if its deadline has been reached by time `t`. -/
def fireDue (s : DebounceState) (t : Nat) : DebounceState :=
  match s.pending with
  | some (d, q) => if d ≤ t then { pending := none, fired := s.fired ++ [q] } else s
  | none => s

/-- The `onInput` handler at time `t` with raw field value `v`: any due timer
has fired beforehand; the still-pending timer (if any) is cancelled by
`clearTimeout`, and `performSearch(trim v)` is scheduled for `t + 300`. -/
def onInputStep (s : DebounceState) (t : Nat) (v : List Char) : DebounceState :=
  let s' := fireDue s t
  { pending := some (t + 300, trimChars v), fired := s'.fired }

def runInput (events : List (Nat × List Char)) : DebounceState :=
  events.foldl (fun s e => onInputStep s e.1 e.2) ⟨none, []⟩

/-- All queries that ever fire: those fired during typing plus the pending
timer, which fires once the input goes quiet. -/
def finalFired (events : List (Nat × List Char)) : List (List Char) :=
  let s := runInput events
  match s.pending with
  | some (_, q) => s.fired ++ [q]
  | none => s.fired

/-- Gaps between consecutive events are forward in time and under 300 ms. -/
def gapsOk : Nat → List (Nat × List Char) → Bool
  | _, [] => true
  | tprev, (t, _) :: rest => decide (tprev ≤ t) && decide (t < tprev + 300) && gapsOk t rest

theorem runInput_invariant :
    ∀ (rest : List (Nat × List Char)) (t : Nat) (v : List Char),
      gapsOk t rest = true →
      List.foldl (fun s e => onInputStep s e.1 e.2)
          ⟨some (t + 300, trimChars v), []⟩ rest
        = ⟨some ((rest.getLastD (t, v)).1 + 300, trimChars (rest.getLastD (t, v)).2), []⟩ := by
  intro rest
  induction rest with
  | nil => intro t v _; rfl
  | cons e rest ih =>
    intro t v hg
    obtain ⟨t2, v2⟩ := e
    simp only [gapsOk, Bool.and_eq_true, decide_eq_true_eq] at hg
    obtain ⟨⟨hle, hlt⟩, hg2⟩ := hg
    simp only [List.foldl_cons]
    have hfd : fireDue ⟨some (t + 300, trimChars v), []⟩ t2
        = ⟨some (t + 300, trimChars v), []⟩ := by
      simp only [fireDue]
      rw [if_neg (by omega : ¬ (t + 300 ≤ t2))]
    have hstep : onInputStep ⟨some (t + 300, trimChars v), []⟩ t2 v2
        = ⟨some (t2 + 300, trimChars v2), []⟩ := by
      simp only [onInputStep, hfd]
    rw [hstep, ih t2 v2 hg2]
    cases rest with
    | nil => rfl
    | cons e' rest' => rfl

/-- Claim C7: for every sequence of input events on the search field whose
gaps are all shorter than the 300 ms debounce window, no query fires during
typing (every pending timer is cancelled by the next keystroke), and exactly
one query fires in total, carrying the trimmed final value typed. -/
theorem debounce_lastValueWins (t0 : Nat) (v0 : List Char)
    (rest : List (Nat × List Char)) (h : gapsOk t0 rest = true) :
    (runInput ((t0, v0) :: rest)).fired = [] ∧
    finalFired ((t0, v0) :: rest) = [trimChars (rest.getLastD (t0, v0)).2] := by
  have hrun : runInput ((t0, v0) :: rest)
      = ⟨some ((rest.getLastD (t0, v0)).1 + 300, trimChars (rest.getLastD (t0, v0)).2), []⟩ := by
    unfold runInput
    simp only [List.foldl_cons]
    have h0 : onInputStep ⟨none, []⟩ t0 v0 = ⟨some (t0 + 300, trimChars v0), []⟩ := rfl
    rw [h0]
    exact runInput_invariant rest t0 v0 h
  refine ⟨by rw [hrun], ?_⟩
  unfold finalFired
  rw [hrun]
  rfl

/-- Witness for claim C7. -/
theorem debounce_lastValueWins_witness :
    gapsOk 0 [(100, " ht".toList), (250, " html ".toList)] = true ∧
    finalFired [(0, "h".toList), (100, " ht".toList), (250, " html ".toList)]
      = ["html".toList] :=
  ⟨by decide,
   (debounce_lastValueWins 0 "h".toList [(100, " ht".toList), (250, " html ".toList)]
     (by decide)).2⟩

/-! ### Search widget: query/response interleaving (`performSearch`,
search.js lines 184-212)

`performSearch(query)` awaits `this.pagefindSearch(query)` and then calls
`this.renderResults(...)` unconditionally — there is no check that `query` is
still the most recent one dispatched.  The model tracks the queries whose
`await` has not yet resumed (`inFlight`) and the result list last written to
the results area (`displayed`).  `env` maps each query to its search results;
a `respond q` event is the resumption of the awaited search call for a
dispatched, still-pending `q`, after which `renderResults` overwrites the
results area with `env q`. -/

inductive SearchEv where
  | dispatch (q : String)
  | respond (q : String)
  deriving DecidableEq, Repr

structure RaceState where
  inFlight : List String
  displayed : Option (List Nat)
  deriving DecidableEq, Repr

def raceStep (env : String → List Nat) (s : RaceState) : SearchEv → RaceState
  | SearchEv.dispatch q => { s with inFlight := s.inFlight ++ [q] }
  | SearchEv.respond q =>
      if q ∈ s.inFlight then
        { inFlight := s.inFlight.erase q, displayed := some (env q) }
      else s

def raceRun (env : String → List Nat) (evs : List SearchEv) : RaceState :=
  evs.foldl (raceStep env) ⟨[], none⟩

/-- Claim C1 counterexample: dispatch "html" then "css"; "css"'s results
resolve first and are rendered; "html"'s late results then overwrite them.
The final rendering is "html"'s results, not "css"'s as the claim demands. -/
theorem searchRace_lastQueryWins_counterexample :
    (raceRun (fun q => if q = "css" then [2] else [1])
        [SearchEv.dispatch "html", SearchEv.dispatch "css",
         SearchEv.respond "css", SearchEv.respond "html"]).displayed = some [1] ∧
    (fun q => if q = "css" then [2] else [1]) "css" = [2] ∧
    ([1] : List Nat) ≠ [2] :=
  ⟨by decide, by decide, by decide⟩

/-- Claim C1 amended: for queries dispatched in order A then B, if B's
asynchronous results resolve before A's, the results finally rendered are
those of the last response to arrive — A's — because `performSearch` renders
whatever its awaited call returns with no staleness check (last response
wins, not last query). -/
theorem searchRace_lastResponseWins (env : String → List Nat) (A B : String)
    (hab : A ≠ B) :
    (raceRun env
        [SearchEv.dispatch A, SearchEv.dispatch B,
         SearchEv.respond B, SearchEv.respond A]).displayed = some (env A) := by
  have hAB : (A == B) = false := beq_eq_false_iff_ne.mpr hab
  have s1 : raceStep env ⟨[], none⟩ (SearchEv.dispatch A) = ⟨[A], none⟩ := rfl
  have s2 : raceStep env ⟨[A], none⟩ (SearchEv.dispatch B) = ⟨[A, B], none⟩ := rfl
  have s3 : raceStep env ⟨[A, B], none⟩ (SearchEv.respond B) = ⟨[A], some (env B)⟩ := by
    simp only [raceStep]
    rw [if_pos (by simp : B ∈ [A, B])]
    simp [List.erase_cons, hAB]
  have s4 : raceStep env ⟨[A], some (env B)⟩ (SearchEv.respond A) = ⟨[], some (env A)⟩ := by
    simp only [raceStep]
    rw [if_pos (by simp : A ∈ [A])]
    simp [List.erase_cons]
  unfold raceRun
  simp only [List.foldl_cons, List.foldl_nil]
  rw [s1, s2, s3, s4]

/-- Witness for the amended claim C1 at queries "html" and "css". -/
theorem searchRace_lastResponseWins_witness :
    (raceRun (fun q => if q = "css" then [2] else [1])
        [SearchEv.dispatch "html", SearchEv.dispatch "css",
         SearchEv.respond "css", SearchEv.respond "html"]).displayed
      = some ((fun q => if q = "css" then [2] else [1]) "html") :=
  searchRace_lastResponseWins (fun q => if q = "css" then [2] else [1]) "html" "css"
    (by decide)

/-! ### Search widget: lazy Pagefind loading (`loadPagefind` lines 1-17,
`ensurePagefindSearch` lines 332-351, `prefetchPagefind` lines 353-359)

The module-level `pagefindModulePromise` memoizes the single dynamic
`import('/pagefind/pagefind.js')` — including a rejected one, since it is
never reset.  The widget-level `pagefindSearchPromise` IS reset to `null` in
the `catch` branch of `ensurePagefindSearch`, which also sets the offline
placeholder.  Each import actually issued gets its outcome from `oracle`
applied to the number of imports issued so far; events are processed
sequentially (each promise settles before the next focus/query arrives). -/

structure PagefindState where
  /-- `pagefindModulePromise`: `none` while no import was ever issued,
  otherwise the memoized settled outcome (`true` = fulfilled). -/
  moduleSettled : Option Bool
  /-- `globalThis.pagefind` has been set (only on success). -/
  globalPagefind : Bool
  /-- How many dynamic `import()` calls were actually issued. -/
  importCount : Nat
  /-- `this.pagefindSearch` is set. -/
  widgetSearch : Bool
  /-- `this.pagefindSearchPromise` is non-null. -/
  widgetPromise : Bool
  /-- `this.input.placeholder` has been set to the offline message. -/
  placeholderOffline : Bool
  deriving DecidableEq, Repr

def initialPagefindState : PagefindState := ⟨none, false, 0, false, false, false⟩

/-- `loadPagefind()`: return the global if present; otherwise create the
module promise only if none was memoized, and return the memoized outcome. -/
def loadPagefind (oracle : Nat → Bool) (st : PagefindState) : PagefindState × Bool :=
  if st.globalPagefind then (st, true)
  else
    match st.moduleSettled with
    | some ok => (st, ok)
    | none =>
        let ok := oracle st.importCount
        ({ st with moduleSettled := some ok
                   importCount := st.importCount + 1
                   globalPagefind := ok }, ok)

/-- `ensurePagefindSearch()`: short-circuit on a resolved search function;
otherwise await `loadPagefind()`.  On failure the widget promise is reset to
null, the offline placeholder is set, and the error propagates (`false`). -/
def ensurePagefindSearch (oracle : Nat → Bool) (st : PagefindState) :
    PagefindState × Bool :=
  if st.widgetSearch then (st, true)
  else
    let (st1, ok) := loadPagefind oracle st
    if ok then ({ st1 with widgetSearch := true, widgetPromise := true }, true)
    else ({ st1 with widgetPromise := false, placeholderOffline := true }, false)

/-- `prefetchPagefind()`: skip when a search function or promise exists;
otherwise `ensurePagefindSearch().catch(() => {})`. -/
def prefetchPagefind (oracle : Nat → Bool) (st : PagefindState) : PagefindState :=
  if st.widgetSearch || st.widgetPromise then st
  else (ensurePagefindSearch oracle st).1

inductive LoadEv where
  | focus
  | query
  deriving DecidableEq, Repr

/-- One user event.  A `query` runs `performSearch`'s ensure step and reports
whether the query proceeded to render results (`some true`), was abandoned by
the `catch` (`some false`); a `focus` only prefetches. -/
def loadStep (oracle : Nat → Bool) (st : PagefindState × List Bool) (ev : LoadEv) :
    PagefindState × List Bool :=
  match ev with
  | LoadEv.focus => (prefetchPagefind oracle st.1, st.2)
  | LoadEv.query =>
      let (st1, ok) := ensurePagefindSearch oracle st.1
      (st1, st.2 ++ [ok])

def loadRun (oracle : Nat → Bool) (evs : List LoadEv) : PagefindState × List Bool :=
  evs.foldl (loadStep oracle) (initialPagefindState, [])

/-- Claim C3, evaluated at the failing scenario.  The first dynamic module
load fails; the oracle would let any second load attempt succeed.  The claim
(and the spec's failure semantics) say the next focus/query issues a new load
attempt; instead `loadPagefind` hands back the memoized rejected module
promise: `importCount` stays 1, the second query is abandoned exactly like the
first, the offline placeholder is set, and — per the widget-level reset —
`pagefindSearchPromise` is null again.  The failure IS permanent, although the
query-abandonment and placeholder parts of the claim hold. -/
theorem pagefindRetry_neverReissuesImport :
    (loadRun (fun i => decide (1 ≤ i)) [LoadEv.query, LoadEv.query]).2 = [false, false] ∧
    (loadRun (fun i => decide (1 ≤ i)) [LoadEv.query, LoadEv.query]).1.importCount = 1 ∧
    (loadRun (fun i => decide (1 ≤ i)) [LoadEv.query, LoadEv.query]).1.placeholderOffline = true ∧
    (loadRun (fun i => decide (1 ≤ i)) [LoadEv.query, LoadEv.query]).1.widgetPromise = false ∧
    (loadRun (fun i => decide (1 ≤ i)) [LoadEv.focus, LoadEv.query, LoadEv.query]).1.importCount = 1 :=
  ⟨by decide, by decide, by decide, by decide, by decide⟩

theorem loadStep_preserves_loaded (oracle : Nat → Bool) (evs : List LoadEv) :
    ∀ log : List Bool,
      ((evs.foldl (loadStep oracle)
          ((⟨some true, true, 1, true, true, false⟩ : PagefindState), log)).1).importCount
        = 1 := by
  induction evs with
  | nil => intro log; rfl
  | cons e rest ih =>
    intro log
    cases e with
    | focus => simpa [loadStep, prefetchPagefind] using ih log
    | query => simpa [loadStep, ensurePagefindSearch] using ih (log ++ [true])

/-- After a successful load, no further import is ever issued, on any later
event sequence (the "prior successful load is never retried" half of C3). -/
theorem pagefind_noRetryAfterSuccess (oracle : Nat → Bool) (evs : List LoadEv) :
    ((evs.foldl (loadStep oracle)
        ((loadRun (fun _ => true) [LoadEv.query]).1, [])).1).importCount = 1 := by
  have hsucc : (loadRun (fun _ => true) [LoadEv.query]).1
      = ⟨some true, true, 1, true, true, false⟩ := by decide
  rw [hsucc]
  exact loadStep_preserves_loaded oracle evs []

/-! ### Search widget: panel/selection state
(`onFocus` lines 68-74, `closeResults` lines 155-162, `setActive` lines
164-182, `renderResults` lines 214-258, `clearResultsContent` lines 260-267,
`openResults` lines 149-153)

State components: `resultEntries.length`, `activeIndex`, whether the results
area is hidden, what the results area currently shows, and the input value.
`closeResults` hides the panel and resets the entries/index but does NOT
clear the area's markup; `clearResultsContent` does. -/

inductive PanelContent where
  | empty
  | noMatches
  | items (n : Nat)
  deriving DecidableEq, Repr

structure WidgetState where
  resultCount : Nat
  activeIndex : Int
  panelOpen : Bool
  content : PanelContent
  inputValue : List Char
  deriving DecidableEq, Repr

/-- `((nextIndex % len) + len) % len` with JavaScript `%` (truncating
remainder, sign of the dividend), i.e. `Int.tmod`. -/
def jsWrapIndex (i : Int) (n : Nat) : Int :=
  ((i.tmod (n : Int)) + (n : Int)).tmod (n : Int)

inductive WidgetEv where
  /-- `onFocus` (the prefetch aside): open the panel if the input has a value. -/
  | focus
  /-- The user edits the input to `v` (the debounced search arrives later as
  `render` or `close`). -/
  | inputChange (v : List Char)
  /-- `renderResults` with `n` result items (`n = 0` shows "No matches found",
  which contributes no entries since its `<li>` holds no link). -/
  | render (n : Nat)
  /-- `closeResults` (Escape, outside pointerdown, or an empty query in
  `performSearch`). -/
  | close
  /-- `clearResultsContent` (via the clear button's handler). -/
  | clear
  /-- `setActive(i)` (arrow-key navigation). -/
  | setActive (i : Int)
  /-- `openResults` (arrow keys on the input also open the panel). -/
  | openPanel
  deriving DecidableEq, Repr

def widgetStep (s : WidgetState) : WidgetEv → WidgetState
  | WidgetEv.focus => if s.inputValue ≠ [] then { s with panelOpen := true } else s
  | WidgetEv.inputChange v => { s with inputValue := v }
  | WidgetEv.render n =>
      let s' := { s with content := PanelContent.empty, resultCount := 0, activeIndex := -1 }
      if n = 0 then { s' with content := PanelContent.noMatches, panelOpen := true }
      else { s' with content := PanelContent.items n, resultCount := n, panelOpen := true }
  | WidgetEv.close =>
      { s with panelOpen := false, resultCount := 0, activeIndex := -1 }
  | WidgetEv.clear =>
      { s with content := PanelContent.empty, resultCount := 0, activeIndex := -1 }
  | WidgetEv.setActive i =>
      if s.resultCount = 0 then s
      else { s with activeIndex := jsWrapIndex i s.resultCount }
  | WidgetEv.openPanel => { s with panelOpen := true }

/-- The widget's state when `connectedCallback` has just run. -/
def initialWidgetState : WidgetState :=
  ⟨0, -1, false, PanelContent.empty, []⟩

def widgetRun (evs : List WidgetEv) : WidgetState :=
  evs.foldl widgetStep initialWidgetState

/-- The index half of the claimed invariant. -/
def IndexInv (s : WidgetState) : Prop :=
  s.activeIndex = -1 ∨ (0 ≤ s.activeIndex ∧ s.activeIndex < (s.resultCount : Int))

theorem tmod_neg_left (a b : Int) : (-a).tmod b = -(a.tmod b) := by
  rw [Int.tmod_def, Int.tmod_def, Int.neg_tdiv]
  ring

theorem tmod_lower (a n : Int) (h : 0 < n) : -n < a.tmod n := by
  rcases le_or_lt 0 a with ha | ha
  · have h1 := Int.tmod_nonneg n ha
    omega
  · have h2 : a.tmod n = -((-a).tmod n) := by rw [tmod_neg_left, neg_neg]
    have h3 : (-a).tmod n < n := Int.tmod_lt_of_pos (-a) h
    omega

theorem jsWrapIndex_bounds (i : Int) (n : Nat) (h : 0 < n) :
    0 ≤ jsWrapIndex i n ∧ jsWrapIndex i n < (n : Int) := by
  have hn : (0 : Int) < (n : Int) := by exact_mod_cast h
  have hlow := tmod_lower i (n : Int) hn
  have hnn : 0 ≤ (i.tmod (n : Int)) + (n : Int) := by omega
  exact ⟨Int.tmod_nonneg _ hnn, Int.tmod_lt_of_pos _ hn⟩

theorem widgetStep_preserves_IndexInv (s : WidgetState) (e : WidgetEv)
    (hs : IndexInv s) : IndexInv (widgetStep s e) := by
  cases e with
  | focus =>
    by_cases hv : s.inputValue ≠ [] <;> simp [widgetStep, hv, IndexInv] at hs ⊢ <;> exact hs
  | inputChange v => exact hs
  | render n =>
    by_cases hn : n = 0 <;> simp [widgetStep, hn, IndexInv]
  | close => simp [widgetStep, IndexInv]
  | clear => simp [widgetStep, IndexInv]
  | setActive i =>
    by_cases hn : s.resultCount = 0
    · simpa [widgetStep, hn] using hs
    · have hb := jsWrapIndex_bounds i s.resultCount (Nat.pos_of_ne_zero hn)
      simp [widgetStep, hn, IndexInv]
      right
      exact hb
  | openPanel =>
    simp [widgetStep, IndexInv] at hs ⊢
    exact hs

/-- Claim C9 amended: in every reachable state of the widget the highlighted
index is `-1` or a valid index into the current result entries
(`0 ≤ activeIndex < resultCount`), and every operation preserves this.  The
panel-open half of the original claim is false (see the counterexample). -/
theorem widget_indexInvariant (evs : List WidgetEv) : IndexInv (widgetRun evs) := by
  unfold widgetRun
  generalize hinit : initialWidgetState = s0
  have h0 : IndexInv s0 := by rw [← hinit]; exact Or.inl rfl
  clear hinit
  induction evs generalizing s0 with
  | nil => exact h0
  | cons e rest ih =>
    exact ih (widgetStep s0 e) (widgetStep_preserves_IndexInv s0 e h0)

/-- Claim C9 counterexample: typing a value and focusing opens the panel with
no result entries and no "no matches" placeholder — `onFocus` calls
`openResults()` whenever the input is non-empty, before any search has
rendered — violating the claimed "panel open only when results exist or the
placeholder is shown" (the index half still holds: activeIndex = -1). -/
theorem widget_panelOpen_counterexample :
    (widgetRun [WidgetEv.inputChange ['x'], WidgetEv.focus]).panelOpen = true ∧
    (widgetRun [WidgetEv.inputChange ['x'], WidgetEv.focus]).resultCount = 0 ∧
    (widgetRun [WidgetEv.inputChange ['x'], WidgetEv.focus]).content = PanelContent.empty ∧
    (widgetRun [WidgetEv.inputChange ['x'], WidgetEv.focus]).activeIndex = -1 :=
  ⟨by decide, by decide, by decide, by decide⟩

/-! ### Scaffolding tool date validation (`createNewPost`, scripts/new.js
lines 10-17)

`/^(\d{4})\.(\d{2})\.(\d{2})$/` is a pure format check: four digits, a dot,
two digits, a dot, two digits.  No match prints the error and exits 1;
a match destructures into year/month/day groups.  `\d` is `[0-9]`, i.e.
`Char.isDigit`. -/

def matchesDatePattern : List Char → Bool
  | [y1, y2, y3, y4, d1, m1, m2, d2, a1, a2] =>
      y1.isDigit && y2.isDigit && y3.isDigit && y4.isDigit &&
        d1 == '.' && m1.isDigit && m2.isDigit && d2 == '.' &&
        a1.isDigit && a2.isDigit
  | _ => false

/-- The date-validation step of `createNewPost`: reject (error + `exit 1`)
when the pattern fails, otherwise destructure the `year`, `month`, `day`
capture groups. -/
def parseDateInput (dateInput : List Char) :
    Except String (List Char × List Char × List Char) :=
  if matchesDatePattern dateInput then
    Except.ok (dateInput.take 4, (dateInput.drop 5).take 2, (dateInput.drop 8).take 2)
  else
    Except.error "Error: Invalid date format. Expected format: YYYY.MM.DD (e.g., 2025.11.07)"

/-- Claim C6 counterexample: the claim says "2025.13.01" is rejected like the
other invalid inputs; the format check accepts it — `\d{2}` matches "13" and
no month-range validation exists. -/
theorem dateValidation_accepts_month13 :
    parseDateInput "2025.13.01".toList
      = Except.ok ("2025".toList, "13".toList, "01".toList) := by rfl

/-- Claim C6 amended: the date check accepts "2025.11.07" AND "2025.13.01"
(format-level only), and rejects "2025-11-07" and "25.11.07" equivalently —
both take the same no-match branch producing the same error (and `exit 1`). -/
theorem dateValidation_format_only :
    parseDateInput "2025.11.07".toList
      = Except.ok ("2025".toList, "11".toList, "07".toList) ∧
    matchesDatePattern "2025.13.01".toList = true ∧
    parseDateInput "2025-11-07".toList
      = Except.error
          "Error: Invalid date format. Expected format: YYYY.MM.DD (e.g., 2025.11.07)" ∧
    parseDateInput "25.11.07".toList
      = Except.error
          "Error: Invalid date format. Expected format: YYYY.MM.DD (e.g., 2025.11.07)" :=
  ⟨by rfl, by decide, by rfl, by rfl⟩

/-! ### Cross-post tool (`createMessage` lines 106-126 and
`calculateMastodonLength` lines 79-83 of scripts/crosspost.js)

`createMessage` ignores its `platform` argument.  `calculateMastodonLength`
replaces every match of `/https?:\/\/[^\s]+/g` by 23 placeholder characters
and takes the length.  The regex scan is modelled left to right: a match
starts where the literal `https://` or `http://` prefix is followed by at
least one non-whitespace character and greedily consumes the maximal
non-whitespace run. -/

/-- The backtick character. -/
def backtickChar : Char := Char.ofNat 96

def MASTODON_URL_LENGTH : Nat := 23

/-- `createMessage(postData)`: strip backticks from the description, build
`#tag` hashtags joined by spaces, and return
`` `${title}. ${plainDescription}` `` + optional ` #…` + `"\n\n"` + link. -/
def createMessage (title description link : List Char) (tags : List (List Char)) :
    List Char :=
  let plainDescription := description.filter (fun c => c ≠ backtickChar)
  let hashtags := List.intercalate [' '] (tags.map (fun tag => '#' :: tag))
  let hashtagsPart := if hashtags = [] then [] else ' ' :: hashtags
  let linkPart := '\n' :: '\n' :: link
  let content := title ++ ('.' :: ' ' :: plainDescription)
  content ++ hashtagsPart ++ linkPart

def httpsPrefix : List Char := ['h', 't', 't', 'p', 's', ':', '/', '/']

def httpPrefix : List Char := ['h', 't', 't', 'p', ':', '/', '/']

/-- Total length of the URL match starting at the head of `s`, if any:
the protocol prefix plus the maximal non-whitespace run after it (which the
regex requires to be non-empty). -/
def urlMatchLen (s : List Char) : Option Nat :=
  if httpsPrefix.isPrefixOf s then
    let run := ((s.drop 8).takeWhile (fun c => !isJsWhitespace c)).length
    if run = 0 then none else some (8 + run)
  else if httpPrefix.isPrefixOf s then
    let run := ((s.drop 7).takeWhile (fun c => !isJsWhitespace c)).length
    if run = 0 then none else some (7 + run)
  else none

/-- `message.replace(/https?:\/\/[^\s]+/g, 'x'.repeat(23))`.  When a match of
length `k ≥ 1` starts at `c :: cs`, the scan resumes after it, i.e. at
`cs.drop (k - 1)`. -/
def replaceUrls : List Char → List Char
  | [] => []
  | c :: cs =>
    match urlMatchLen (c :: cs) with
    | some k => List.replicate MASTODON_URL_LENGTH 'x' ++ replaceUrls (cs.drop (k - 1))
    | none => c :: replaceUrls cs
termination_by s => s.length
decreasing_by
  · simp
    omega
  · simp

/-- `calculateMastodonLength(message)`: the length after URL replacement. -/
def calculateMastodonLength (message : List Char) : Nat :=
  (replaceUrls message).length

theorem replaceUrls_cons_none {c : Char} {cs : List Char}
    (h : urlMatchLen (c :: cs) = none) :
    replaceUrls (c :: cs) = c :: replaceUrls cs := by
  rw [replaceUrls, h]

theorem replaceUrls_cons_some {c : Char} {cs : List Char} {k : Nat}
    (h : urlMatchLen (c :: cs) = some k) :
    replaceUrls (c :: cs)
      = List.replicate MASTODON_URL_LENGTH 'x' ++ replaceUrls (cs.drop (k - 1)) := by
  rw [replaceUrls, h]

theorem urlMatchLen_none_of_head_ne {c : Char} (cs : List Char) (h : c ≠ 'h') :
    urlMatchLen (c :: cs) = none := by
  have h1 : httpsPrefix.isPrefixOf (c :: cs) = false := by
    simp [httpsPrefix, List.isPrefixOf]
    intro he
    exact absurd he.symm h
  have h2 : httpPrefix.isPrefixOf (c :: cs) = false := by
    simp [httpPrefix, List.isPrefixOf]
    intro he
    exact absurd he.symm h
  simp [urlMatchLen, h1, h2]

theorem replaceUrls_append_nourl (pre : List Char) (h : ∀ c ∈ pre, c ≠ 'h')
    (rest : List Char) :
    replaceUrls (pre ++ rest) = pre ++ replaceUrls rest := by
  induction pre with
  | nil => rfl
  | cons p ps ih =>
    have hp : p ≠ 'h' := h p (List.mem_cons_self _ _)
    rw [List.cons_append,
      replaceUrls_cons_none (urlMatchLen_none_of_head_ne _ hp),
      ih (fun c hc => h c (List.mem_cons_of_mem _ hc))]
    rfl

theorem takeWhile_eq_self_of_all {α} (p : α → Bool) :
    ∀ l : List α, (∀ c ∈ l, p c = true) → l.takeWhile p = l := by
  intro l h
  induction l with
  | nil => rfl
  | cons a as ih =>
    rw [List.takeWhile_cons, h a (List.mem_cons_self _ _)]
    simp [ih (fun c hc => h c (List.mem_cons_of_mem _ hc))]

theorem urlMatchLen_https (u : List Char) (hu : u ≠ [])
    (hns : ∀ c ∈ u, isJsWhitespace c = false) :
    urlMatchLen (httpsPrefix ++ u) = some (8 + u.length) := by
  have hpre : httpsPrefix.isPrefixOf (httpsPrefix ++ u) = true := by
    rw [List.isPrefixOf_iff_prefix]
    exact List.prefix_append _ _
  have hdrop : (httpsPrefix ++ u).drop 8 = u := by simp [httpsPrefix]
  have htake : u.takeWhile (fun c => !isJsWhitespace c) = u :=
    takeWhile_eq_self_of_all _ u (fun c hc => by simp [hns c hc])
  have hlen : u.length ≠ 0 := fun h0 => hu (List.length_eq_zero.mp h0)
  simp [urlMatchLen, hpre, hdrop, htake, hlen]

theorem replaceUrls_https (u : List Char) (hu : u ≠ [])
    (hns : ∀ c ∈ u, isJsWhitespace c = false) :
    replaceUrls (httpsPrefix ++ u) = List.replicate MASTODON_URL_LENGTH 'x' := by
  have hm : urlMatchLen ('h' :: (['t', 't', 'p', 's', ':', '/', '/'] ++ u))
      = some (8 + u.length) := urlMatchLen_https u hu hns
  have hstep := replaceUrls_cons_some hm
  have hdrop : (['t', 't', 'p', 's', ':', '/', '/'] ++ u).drop (8 + u.length - 1) = [] := by
    rw [List.drop_eq_nil_iff]
    simp
    omega
  show replaceUrls ('h' :: (['t', 't', 'p', 's', ':', '/', '/'] ++ u)) = _
  rw [hstep, hdrop]
  simp [replaceUrls]

/-- Claim C8: with title "Example", body "A test.", link
"https://example.com" and tags ["web", "css"], `createMessage` returns exactly
`"Example. A test. #web #css\n\nhttps://example.com"`; and
`calculateMastodonLength` counts the composed message with the URL as a fixed
23-character token regardless of the URL's literal length (`u` ranges over
arbitrary non-empty whitespace-free URL bodies; the count is always
`28 + 23`). -/
theorem crosspost_message_and_budget (u : List Char) (hu : u ≠ [])
    (hns : ∀ c ∈ u, isJsWhitespace c = false) :
    createMessage "Example".toList "A test.".toList "https://example.com".toList
        ["web".toList, "css".toList]
      = "Example. A test. #web #css\n\nhttps://example.com".toList ∧
    calculateMastodonLength
        (createMessage "Example".toList "A test.".toList (httpsPrefix ++ u)
          ["web".toList, "css".toList])
      = 28 + MASTODON_URL_LENGTH := by
  constructor
  · decide
  · have hmsg : createMessage "Example".toList "A test.".toList (httpsPrefix ++ u)
        ["web".toList, "css".toList]
        = "Example. A test. #web #css\n\n".toList ++ (httpsPrefix ++ u) := rfl
    rw [hmsg]
    unfold calculateMastodonLength
    rw [replaceUrls_append_nourl _ (by decide) _, replaceUrls_https u hu hns]
    simp [MASTODON_URL_LENGTH]

/-- Witness for claim C8 at the literal URL "https://example.com". -/
theorem crosspost_message_and_budget_witness :
    calculateMastodonLength
        (createMessage "Example".toList "A test.".toList
          (httpsPrefix ++ "example.com".toList) ["web".toList, "css".toList])
      = 28 + MASTODON_URL_LENGTH :=
  (crosspost_message_and_budget "example.com".toList (by decide) (by decide)).2

end WebStandards
